import Mathlib

/-!
Verification development for the traffic flow-estimation backend
(`yolov4.py` and `app.py`).

The shallow embedding below translates the flow-estimation pipeline
(`detect_cars` in `yolov4.py`) and the coordinator / activity endpoints
(`app.py`) into executable Lean definitions.  Wall-clock timestamps and
the detector metric are modelled over `ℚ` (the Python floats are only
ever compared and averaged over small integer counts in the properties
of interest), per-frame car counts over `ℕ`.
-/

namespace Traffic

/-- Eviction loop of the temporal window (`yolov4.py` lines 65-66):
pop samples from the front of the deque while the oldest retained
timestamp is strictly older than the cutoff `current_time - 30`. -/
def evictOld (cutoff : ℚ) : List (ℚ × ℕ) → List (ℚ × ℕ)
  | [] => []
  | s :: rest => if s.1 < cutoff then evictOld cutoff rest else s :: rest

/-- One `observe` step of the temporal aggregator (`yolov4.py` lines
60-66): append the new `(timestamp, count)` sample at the right end,
then run the eviction loop with cutoff `t - 30`. -/
def observe (w : List (ℚ × ℕ)) (t : ℚ) (c : ℕ) : List (ℚ × ℕ) :=
  evictOld (t - 30) (w ++ [(t, c)])

/-- The window contents after feeding a whole sequence of
`(timestamp, count)` observations to the aggregator, starting empty. -/
def runObs (obs : List (ℚ × ℕ)) : List (ℚ × ℕ) :=
  obs.foldl (fun w s => observe w s.1 s.2) []

/-- Plateau scan of scipy's `_local_maxima_1d` (the engine of
`scipy.signal.find_peaks`, called at `yolov4.py` line 72): starting at
`i`, advance while the value equals `v` and the index is below `iMax`.
`fuel` bounds the iteration count; every call below passes
`fuel ≥ iMax - i`, so the bound is never hit. -/
def plateauEnd (x : List ℕ) (v : ℕ) (iMax : ℕ) : ℕ → ℕ → ℕ
  | 0, i => i
  | fuel + 1, i => if i < iMax ∧ x[i]! = v then plateauEnd x v iMax fuel (i + 1) else i

/-- Main loop of scipy's `_local_maxima_1d`: `i` runs over `1 ≤ i < iMax`
(`iMax` = last index, so the first and last sample are never peaks).
When `x[i-1] < x[i]`, scan the plateau of values equal to `x[i]`; if the
first value after the plateau is smaller, the midpoint
`(left + right) / 2` of the plateau is recorded as a peak and scanning
resumes after the plateau.  `fuel` bounds the number of loop steps;
every call passes enough fuel (each step increases `i` by at least 1). -/
def lmAux (x : List ℕ) (iMax : ℕ) : ℕ → ℕ → List ℕ
  | 0, _ => []
  | fuel + 1, i =>
    if i < iMax then
      if x[i - 1]! < x[i]! then
        if x[plateauEnd x (x[i]!) iMax iMax (i + 1)]! < x[i]! then
          (i + (plateauEnd x (x[i]!) iMax iMax (i + 1) - 1)) / 2 ::
            lmAux x iMax fuel (plateauEnd x (x[i]!) iMax iMax (i + 1) + 1)
        else lmAux x iMax fuel (i + 1)
      else lmAux x iMax fuel (i + 1)
    else []

/-- The call `find_peaks(car_count_values)` (`yolov4.py` line 72): the
peak indices scipy returns on the finalized count sequence. -/
def localMaxima (x : List ℕ) : List ℕ :=
  lmAux x (x.length - 1) x.length 1

/-- The representative flow metric (`yolov4.py` line 75):
`np.mean([car_count_values[i] for i in peaks]) if peaks.size > 0 else 0`. -/
def meanPeakValue (values : List ℕ) : ℚ :=
  if 0 < (localMaxima values).length then
    ((localMaxima values).map (fun i => ((values[i]! : ℕ) : ℚ))).sum /
      ((localMaxima values).length : ℚ)
  else 0

/-- The PeakSet as the specification words it: indices of the finalized
sequence whose value is strictly greater than both neighbors (the first
and last index never qualify).  Written from the spec, for comparison
with `localMaxima`, which is written from the code. -/
def strictLocalMaxima (x : List ℕ) : List ℕ :=
  (List.range x.length).filter
    (fun j => decide (0 < j) && decide (j + 1 < x.length) &&
      decide (x[j - 1]! < x[j]!) && decide (x[j + 1]! < x[j]!))

/-- Outcome of one `cap.read()` + `model.detect(...)` round
(`yolov4.py` lines 48-55): either the detector raises (corrupt frame,
decoder error), or it yields the list of detected class ids. -/
inductive Frame where
  | err : Frame
  | ok : List ℕ → Frame
deriving DecidableEq

/-- The external world one `detect_cars(video_file)` call sees:
whether `classes.txt` can be read and its content, whether the model
assets load, whether the video opens, and the finite stream of frames,
each tagged with the wall-clock time `time.time()` returns for it.
The CUDA/CPU backend probe (`yolov4.py` lines 25-30) has no observable
effect on the returned value and is not modelled; `starting_time` and
`frame_counter` are never read. -/
structure Env where
  classesFileOk : Bool
  classNames : List String
  modelLoadOk : Bool
  openOk : Bool
  frames : List (ℚ × Frame)
deriving DecidableEq

/-- Per-frame car count (`yolov4.py` line 58):
`sum(1 for classid in classes if class_name[classid] == "car")`.  Indexing `class_name[classid]` raises
`IndexError` when some id is out of range; that is modelled as `none`
(the exception is caught by the surrounding handler). -/
def carCount (names : List String) (ids : List ℕ) : Option ℕ :=
  if ids.all (fun id => decide (id < names.length)) then
    some ((ids.filter (fun id => decide (names[id]! = "car"))).length)
  else none

/-- The `while True` streaming loop (`yolov4.py` lines 47-66): read a
frame (list exhausted = `ret` false = break), detect, count cars, feed
the `(timestamp, count)` sample to the temporal aggregator.  An `error`
result models an exception escaping the loop body. -/
def streamLoop (names : List String) : List (ℚ × Frame) → List (ℚ × ℕ) →
    Except Unit (List (ℚ × ℕ))
  | [], w => Except.ok w
  | (_, Frame.err) :: _, _ => Except.error ()
  | (t, Frame.ok ids) :: rest, w =>
    match carCount names ids with
    | none => Except.error ()
    | some c => streamLoop names rest (observe w t c)

/-- What one `detect_cars` call returns and which resource events
happened: `result` is the returned value, `opened` records whether
`cv.VideoCapture` successfully acquired the video resource, `released`
whether `cap.release()` ran before returning. -/
structure RunResult where
  result : ℚ
  opened : Bool
  released : Bool
deriving DecidableEq

/-- The function `detect_cars(video_file)` (`yolov4.py` lines 7-84).  The body runs
under a single `try`/`except Exception` that prints the error and
returns `-1`, so the function is total towards its caller; the
successive `if`s mirror the successive raise points: `open('classes.txt')`,
the explicit `ValueError` when `"car"` is missing (line 19),
`cv.dnn.readNet` (line 22), the explicit `FileNotFoundError` when the
video does not open (line 39), and any exception while streaming.
`cap.release()` (line 78) is only on the fall-through success path. -/
def detectCars (env : Env) : RunResult :=
  if ¬ env.classesFileOk then ⟨-1, false, false⟩
  else if "car" ∉ env.classNames then ⟨-1, false, false⟩
  else if ¬ env.modelLoadOk then ⟨-1, false, false⟩
  else if ¬ env.openOk then ⟨-1, false, false⟩
  else
    match streamLoop env.classNames env.frames [] with
    | Except.error _ => ⟨-1, true, false⟩
    | Except.ok w => ⟨meanPeakValue (w.map Prod.snd), true, true⟩

/-- Whether the streaming loop finishes without an exception. -/
def streamOk (env : Env) : Bool :=
  match streamLoop env.classNames env.frames [] with
  | Except.ok _ => true
  | Except.error _ => false

/-- A `detect_cars` run in which nothing fails: the configuration and
model load, `"car"` is in the vocabulary, the video opens, and every
frame is decoded and counted without an exception. -/
def validEnv (env : Env) : Prop :=
  env.classesFileOk = true ∧ "car" ∈ env.classNames ∧
    env.modelLoadOk = true ∧ env.openOk = true ∧ streamOk env = true

instance : DecidablePred validEnv := fun env => by
  unfold validEnv; infer_instance

/-- The four approaches of the intersection (`app.py` line 52). -/
inductive Direction where
  | north | south | east | west
deriving DecidableEq

/-- The per-direction traffic counts dictionary assembled by
`approve_activity` (`app.py` lines 108-113). -/
structure FlowReport where
  north : ℚ
  south : ℚ
  east : ℚ
  west : ℚ
deriving DecidableEq

/-- Field lookup of a `FlowReport` by direction. -/
def FlowReport.get (r : FlowReport) : Direction → ℚ
  | Direction.north => r.north
  | Direction.south => r.south
  | Direction.east => r.east
  | Direction.west => r.west

/-- The counts `[detect_cars(video) for video in video_paths]` keyed
by direction (`app.py` lines 98-113): each direction's entry is
the value the corresponding pipeline returned, verbatim.  `envOf d` is
the world seen by the pipeline run on direction `d`'s video. -/
def flowReportOf (envOf : Direction → Env) : FlowReport :=
  ⟨(detectCars (envOf Direction.north)).result,
   (detectCars (envOf Direction.south)).result,
   (detectCars (envOf Direction.east)).result,
   (detectCars (envOf Direction.west)).result⟩

/-- One entry of the in-memory `activities` list (`app.py` lines
67-75).  `P` is the shape of the external optimizer's timing plan,
which `app.py` treats as opaque payload. -/
structure Activity (P : Type) where
  id : String
  userId : String
  timestamp : String
  videos : List String
  status : String
  result : Option P
  trafficCounts : Option FlowReport
deriving DecidableEq

/-- One entry of the `recent_activities` log (`app.py` lines 79-83). -/
structure RecentEntry where
  id : String
  action : String
  timestamp : String
deriving DecidableEq

/-- The shared in-memory state of `app.py`: the module-level
`activities`, `recent_activities` and `users` collections (lines 23-25)
plus the set of activity folders existing under `uploads/`. -/
structure Store (P : Type) where
  activities : List (Activity P)
  recentActivities : List RecentEntry
  users : List String
  folders : List String
deriving DecidableEq

/-- A response returned by a route: an error with its HTTP status code,
a `201 {"activityId": ...}` creation response, or a
`200 {"success": true}` response. -/
inductive Resp where
  | err : ℕ → String → Resp
  | createdR : String → Resp
  | okR : Resp
deriving DecidableEq

/-- Whether the response is an error response. -/
def Resp.isErr : Resp → Bool
  | Resp.err _ _ => true
  | _ => false

/-- Split a character list at every `'.'` (the pieces `"x.y.z"` has
between dots); a list with no dot yields a single piece. -/
def splitOnDot : List Char → List (List Char)
  | [] => [[]]
  | c :: rest =>
    match splitOnDot rest with
    | [] => [[]]
    | p :: ps => if c = '.' then [] :: p :: ps else (c :: p) :: ps

/-- The check `allowed_file(filename)` (`app.py` lines 27-29): the name contains a
dot and the lowercased part after the last dot is `mp4`, `avi` or `mov`
(`rsplit(".", 1)[1]` is exactly the segment after the last dot; the
extensions are ASCII, so `str.lower` is per-character `Char.toLower`). -/
def allowedFile (filename : String) : Bool :=
  decide (2 ≤ (splitOnDot filename.data).length) &&
    ((splitOnDot filename.data).getLast!.map Char.toLower == "mp4".data ||
     (splitOnDot filename.data).getLast!.map Char.toLower == "avi".data ||
     (splitOnDot filename.data).getLast!.map Char.toLower == "mov".data)

/-- The fixed direction names `["north", "south", "east", "west"]`
(`app.py` line 52). -/
def directionNames : List String := ["north", "south", "east", "west"]

/-- The route `upload_files` (`app.py` lines 35-85).  `req` carries whether the
request has a `videos` part and a `userId` field, the uploaded
filenames, and the user id; `fresh` is the `uuid4` chosen as activity
id, `logId` the `uuid4` of the log entry, `now` the
`datetime.utcnow().isoformat()` reading.  The per-video loop saves each
file and on the first falsy or disallowed file deletes the activity
folder and returns `400`; its net effect on the shared state is as
written here. -/
def uploadFiles {P : Type} (now fresh logId : String) (hasVideos hasUserId : Bool)
    (videos : List String) (userId : String) (st : Store P) : Resp × Store P :=
  if ¬ (hasVideos ∧ hasUserId) then (Resp.err 400 "Missing videos or userId", st)
  else if videos.length ≠ 4 then (Resp.err 400 "Exactly 4 videos are required", st)
  else if videos.all (fun v => !(v == "") && allowedFile v) then
    (Resp.createdR fresh,
      { activities := st.activities ++
          [{ id := fresh, userId := userId, timestamp := now,
             videos := directionNames.map
               (fun d => "http://localhost:5000/videos/" ++ fresh ++ "/" ++ d ++ ".mp4"),
             status := "pending", result := none, trafficCounts := none }],
        recentActivities := st.recentActivities ++
          [{ id := logId, action := "User " ++ userId ++ " uploaded videos",
             timestamp := now }],
        users := if userId ∈ st.users then st.users else st.users ++ [userId],
        folders := st.folders ++ [fresh] })
  else
    (Resp.err 400 "Invalid video file",
      { st with folders := (st.folders ++ [fresh]).filter (fun f => !(f == fresh)) })

/-- The `for activity in activities:` search shared by
`approve_activity` and `reject_activity` (`app.py` lines 96-97 and
128-129): walk the list, transform the first element satisfying `p`
with `f` and keep everything else; `none` when no element matches. -/
def updateFirst {α : Type} (p : α → Bool) (f : α → α) : List α → Option (α × List α)
  | [] => none
  | a :: rest =>
    if p a then some (a, f a :: rest)
    else (updateFirst p f rest).map (fun q => (q.1, a :: q.2))

/-- The match condition of both routes: same id and status `pending`. -/
def pendingWithId {P : Type} (aid : String) (a : Activity P) : Bool :=
  a.id == aid && a.status == "pending"

/-- The mutation `approve_activity` applies to the matched activity
(`app.py` lines 102-113): run the four pipelines, hand the list of
their values to `optimize_traffic`, set status `approved`, store the
optimizer result and the per-direction counts. -/
def approveUpdate {P : Type} (optimize : List ℚ → P) (envOf : Direction → Env)
    (a : Activity P) : Activity P :=
  { a with status := "approved",
           result := some (optimize
             [(flowReportOf envOf).north, (flowReportOf envOf).south,
              (flowReportOf envOf).east, (flowReportOf envOf).west]),
           trafficCounts := some (flowReportOf envOf) }

/-- The route `approve_activity(activity_id)` (`app.py` lines 93-123).
`optimize` models `optimize_traffic` from the `algo` module, which is
not part of the given sources; per the spec it is an opaque external
timing-allocation function, so it is a parameter here.  `envOf d` is
the world seen by `detect_cars` on direction `d`'s video file. -/
def approveActivity {P : Type} (optimize : List ℚ → P) (envOf : Direction → Env)
    (aid logId now : String) (st : Store P) : Resp × Store P :=
  match updateFirst (pendingWithId aid) (approveUpdate optimize envOf) st.activities with
  | none => (Resp.err 404 "Activity not found or already processed", st)
  | some (a, l) =>
    (Resp.okR,
      { st with activities := l,
                recentActivities := st.recentActivities ++
                  [{ id := logId,
                     action := "Admin approved activity " ++ aid ++ " for user " ++ a.userId,
                     timestamp := now }] })

/-- The route `reject_activity(activity_id)` (`app.py` lines 125-140): same
search, but the matched activity only gets status `rejected`. -/
def rejectActivity {P : Type} (aid logId now : String) (st : Store P) : Resp × Store P :=
  match updateFirst (pendingWithId aid)
      (fun a : Activity P => { a with status := "rejected" }) st.activities with
  | none => (Resp.err 404 "Activity not found or already processed", st)
  | some (a, l) =>
    (Resp.okR,
      { st with activities := l,
                recentActivities := st.recentActivities ++
                  [{ id := logId,
                     action := "Admin rejected activity " ++ aid ++ " for user " ++ a.userId,
                     timestamp := now }] })

/-! ### Basic lemmas about the pipeline -/

theorem detectCars_openFail (env : Env) (h : env.openOk = false) :
    detectCars env = ⟨-1, false, false⟩ := by
  unfold detectCars
  split_ifs with h1 h2 h3 h4 <;> try rfl
  simp [h] at h4

theorem detectCars_streamErr (env : Env) (h : streamOk env = false) :
    (detectCars env).result = -1 ∧ (detectCars env).released = false := by
  unfold detectCars
  split_ifs <;> try exact ⟨rfl, rfl⟩
  unfold streamOk at h
  cases hs : streamLoop env.classNames env.frames [] with
  | error e => simp [hs]
  | ok w => rw [hs] at h; simp at h

theorem detectCars_valid (env : Env) (h : validEnv env) :
    ∃ w, streamLoop env.classNames env.frames [] = Except.ok w ∧
      detectCars env = ⟨meanPeakValue (w.map Prod.snd), true, true⟩ := by
  obtain ⟨h1, h2, h3, h4, h5⟩ := h
  unfold streamOk at h5
  cases hs : streamLoop env.classNames env.frames [] with
  | error e => rw [hs] at h5; simp at h5
  | ok w =>
    refine ⟨w, rfl, ?_⟩
    simp [detectCars, h1, h2, h3, h4, hs]

theorem meanPeakValue_nonneg (values : List ℕ) : 0 ≤ meanPeakValue values := by
  unfold meanPeakValue
  split
  · apply div_nonneg
    · apply List.sum_nonneg
      intro x hx
      obtain ⟨i, _, rfl⟩ := List.mem_map.1 hx
      exact Nat.cast_nonneg _
    · exact Nat.cast_nonneg _
  · exact le_refl 0

theorem detectCars_result_nonneg (env : Env) (h : validEnv env) :
    0 ≤ (detectCars env).result := by
  obtain ⟨w, _, hrun⟩ := detectCars_valid env h
  rw [hrun]
  exact meanPeakValue_nonneg _

theorem flowReportOf_get (envOf : Direction → Env) (d : Direction) :
    (flowReportOf envOf).get d = (detectCars (envOf d)).result := by
  cases d <;> rfl

/-! ### Claim theorems -/

/-- Claim C3: on the input sequence `[1,3,2,5,2]` the Peak Estimator
yields the peak indices `{1,3}` (both as computed by `find_peaks` and
as strict local maxima) and the metric `(3+5)/2 = 4`. -/
theorem c3_peak_example :
    localMaxima [1, 3, 2, 5, 2] = [1, 3] ∧
      strictLocalMaxima [1, 3, 2, 5, 2] = [1, 3] ∧
      meanPeakValue [1, 3, 2, 5, 2] = 4 := by
  refine ⟨by decide, by decide, ?_⟩
  have h : localMaxima [1, 3, 2, 5, 2] = [1, 3] := by decide
  simp [meanPeakValue, h]
  norm_num

/-- Claim C4: whenever the video cannot be opened, or any failure
occurs mid-stream (corrupt frame, decoder error, out-of-range class
id), `detect_cars` returns the sentinel `-1`; the model of
`detect_cars` is a total function, reflecting that the outer
`try`/`except Exception` never lets an exception reach the caller. -/
theorem c4_failure_returns_sentinel (env : Env)
    (h : env.openOk = false ∨ streamOk env = false) :
    (detectCars env).result = -1 := by
  rcases h with h | h
  · rw [detectCars_openFail env h]
  · exact (detectCars_streamErr env h).1

/-- Witness for C4: a video that does not open, and a video that fails
on its first frame, both yield `-1`. -/
theorem c4_witness :
    (detectCars ⟨true, ["car"], true, false, []⟩).result = -1 ∧
      (detectCars ⟨true, ["car"], true, true, [((0 : ℚ), Frame.err)]⟩).result = -1 :=
  ⟨c4_failure_returns_sentinel _ (Or.inl rfl),
   c4_failure_returns_sentinel _ (Or.inr rfl)⟩

/-- Counterexample to claim C7 as stated: with a class vocabulary
lacking `"car"` and a perfectly openable video, the absence is found
inside `detect_cars` (the check is at `yolov4.py` line 18, inside the
per-video `try`), the `ValueError` is caught by the broad handler at
line 82, and it becomes a per-direction sentinel `-1` in the
coordinator's report — it does not abort startup. -/
theorem c7_counterexample :
    (flowReportOf
        (fun _ => ⟨true, ["person", "bicycle"], true, true, [((0 : ℚ), Frame.ok [0])]⟩)).get
        Direction.north = -1 ∧
      (detectCars ⟨true, ["person", "bicycle"], true, true,
        [((0 : ℚ), Frame.ok [0])]⟩).result = -1 := by
  decide

/-- Claim C7 (amended): when the class vocabulary lacks `"car"`, each
`detect_cars` run discovers the absence itself, before its video is
opened, and returns the sentinel `-1` for that direction; no process
startup abort occurs. -/
theorem c7_no_car_per_video (env : Env) (h : "car" ∉ env.classNames) :
    (detectCars env).result = -1 ∧ (detectCars env).opened = false := by
  unfold detectCars
  split_ifs <;> exact ⟨rfl, rfl⟩

/-- Witness for the amended C7. -/
theorem c7_witness :
    (detectCars ⟨true, ["person"], true, true, []⟩).result = -1 ∧
      (detectCars ⟨true, ["person"], true, true, []⟩).opened = false :=
  c7_no_car_per_video _ (by decide)

/-- Counterexample to claim C8 as stated: a video that opens and then
fails on its first frame leaves `detect_cars` through the `except`
handler, which returns `-1` without ever running `cap.release()` (line
78 is only on the success path): the pipeline returns while the opened
resource is still held. -/
theorem c8_counterexample :
    (detectCars ⟨true, ["car"], true, true, [((0 : ℚ), Frame.err)]⟩).opened = true ∧
      (detectCars ⟨true, ["car"], true, true, [((0 : ℚ), Frame.err)]⟩).released = false := by
  decide

/-- Claim C8 (amended): when configuration, model load and video open
succeed, the resource is acquired, and it is released before return
exactly when the streaming loop runs to exhaustion without an
exception; on a mid-stream failure `detect_cars` returns with the
opened resource still unreleased. -/
theorem c8_release_only_on_success (env : Env) (h1 : env.classesFileOk = true)
    (h2 : "car" ∈ env.classNames) (h3 : env.modelLoadOk = true) (h4 : env.openOk = true) :
    (detectCars env).opened = true ∧
      ((detectCars env).released = true ↔ streamOk env = true) := by
  unfold detectCars
  simp only [h1, h2, h3, h4, not_true_eq_false, if_false]
  cases hs : streamLoop env.classNames env.frames [] <;>
    simp [streamOk, hs]

/-- Witness for the amended C8. -/
theorem c8_witness :
    (detectCars ⟨true, ["car"], true, true, []⟩).opened = true ∧
      ((detectCars ⟨true, ["car"], true, true, []⟩).released = true ↔
        streamOk ⟨true, ["car"], true, true, []⟩ = true) :=
  c8_release_only_on_success _ rfl (by decide) rfl rfl

/-! ### Coordinator claims -/

/-- Claim C5: with one unopenable video and three fully valid ones, the
report maps every direction to its own pipeline's value verbatim, the
failed direction to `-1`, and each valid direction to a non-negative
metric different from `-1` — so exactly one direction carries the
sentinel, and one failure never blocks the other three. -/
theorem c5_one_failed_direction (envOf : Direction → Env) (k : Direction)
    (hk : (envOf k).openOk = false)
    (hv : ∀ d, d ≠ k → validEnv (envOf d)) :
    (∀ d, (flowReportOf envOf).get d = (detectCars (envOf d)).result) ∧
      (flowReportOf envOf).get k = -1 ∧
      (∀ d, d ≠ k → 0 ≤ (flowReportOf envOf).get d ∧ (flowReportOf envOf).get d ≠ -1) := by
  refine ⟨flowReportOf_get envOf, ?_, ?_⟩
  · rw [flowReportOf_get, detectCars_openFail _ hk]
  · intro d hd
    have h0 := detectCars_result_nonneg _ (hv d hd)
    rw [flowReportOf_get]
    refine ⟨h0, fun hEq => ?_⟩
    rw [hEq] at h0
    norm_num at h0

/-- Witness for C5: north's video does not open, the other three are
valid; north is `-1`, south is a non-negative metric. -/
theorem c5_witness :
    (flowReportOf (fun d => match d with
      | Direction.north => ⟨true, ["car"], true, false, []⟩
      | _ => ⟨true, ["car"], true, true, [((0 : ℚ), Frame.ok [])]⟩)).get Direction.north = -1 ∧
    (flowReportOf (fun d => match d with
      | Direction.north => ⟨true, ["car"], true, false, []⟩
      | _ => ⟨true, ["car"], true, true, [((0 : ℚ), Frame.ok [])]⟩)).get Direction.south ≠ -1 :=
  ⟨(c5_one_failed_direction _ Direction.north rfl
      (fun d hd => by cases d <;> first | exact absurd rfl hd | decide)).2.1,
   ((c5_one_failed_direction _ Direction.north rfl
      (fun d hd => by cases d <;> first | exact absurd rfl hd | decide)).2.2
      Direction.south (by decide)).2⟩

theorem evictOld_suffix (c : ℚ) : ∀ l : List (ℚ × ℕ), evictOld c l <:+ l := by
  intro l
  induction l with
  | nil => exact List.suffix_refl _
  | cons s rest ih =>
    unfold evictOld
    split
    · exact ih.trans (List.suffix_cons s rest)
    · exact List.suffix_refl _

theorem carCount_zeros (names : List String) (ids : List ℕ)
    (h : ∀ id ∈ ids, id < names.length ∧ names[id]! ≠ "car") :
    carCount names ids = some 0 := by
  unfold carCount
  rw [if_pos (List.all_eq_true.2 fun id hid => decide_eq_true (h id hid).1)]
  have hnil : ids.filter (fun id => decide (names[id]! = "car")) = [] :=
    List.filter_eq_nil_iff.2 fun id hid => by
      simp only [decide_eq_true_eq]
      exact (h id hid).2
  rw [hnil]
  rfl

theorem streamLoop_zeros (names : List String) :
    ∀ (frames : List (ℚ × Frame)) (w : List (ℚ × ℕ)),
      (∀ s ∈ w, s.2 = 0) →
      (∀ s ∈ frames, ∃ ids, s.2 = Frame.ok ids ∧ carCount names ids = some 0) →
      ∃ w2, streamLoop names frames w = Except.ok w2 ∧ ∀ s ∈ w2, s.2 = 0 := by
  intro frames
  induction frames with
  | nil => exact fun w hw _ => ⟨w, rfl, hw⟩
  | cons a rest ih =>
    rcases a with ⟨t, f⟩
    intro w hw hf
    obtain ⟨ids, hok, hcnt⟩ := hf (t, f) (List.mem_cons_self _ _)
    have hfid : f = Frame.ok ids := hok
    subst hfid
    simp only [streamLoop, hcnt]
    apply ih
    · intro s hs
      have hsub := (evictOld_suffix _ _).subset hs
      rcases List.mem_append.1 hsub with h1 | h1
      · exact hw s h1
      · rw [List.mem_singleton.1 h1]
    · exact fun s hs => hf s (List.mem_cons_of_mem _ hs)

theorem getElemBang_zeros (l : List ℕ) (h : ∀ v ∈ l, v = 0) (j : ℕ) : l[j]! = 0 := by
  by_cases hj : j < l.length
  · rw [getElem!_pos l j hj]
    exact h _ (List.getElem_mem _)
  · rw [getElem!_neg l j hj]
    rfl

theorem lmAux_no_ascent (x : List ℕ) (iMax : ℕ) (h : ∀ j, ¬ x[j - 1]! < x[j]!) :
    ∀ (fuel i : ℕ), lmAux x iMax fuel i = [] := by
  intro fuel
  induction fuel with
  | zero => intro i; rfl
  | succ fuel ih =>
    intro i
    unfold lmAux
    split_ifs with h1 h2 h3
    · exact absurd h2 (h i)
    · exact absurd h2 (h i)
    · exact ih (i + 1)
    · rfl

theorem meanPeakValue_zeros (values : List ℕ) (h : ∀ v ∈ values, v = 0) :
    meanPeakValue values = 0 := by
  have hlm : localMaxima values = [] := by
    unfold localMaxima
    exact lmAux_no_ascent values _ (fun j => by
      rw [getElemBang_zeros values h (j - 1), getElemBang_zeros values h j]
      exact lt_irrefl 0) _ _
  unfold meanPeakValue
  rw [hlm]
  rfl

/-- Claim C6: four processable videos with zero detections of `"car"`
in every frame give per-frame count `0` everywhere and a report of all
zeros, a value distinct from the failure sentinel `-1`. -/
theorem c6_all_zero_report (envOf : Direction → Env)
    (hflags : ∀ d, (envOf d).classesFileOk = true ∧ "car" ∈ (envOf d).classNames ∧
      (envOf d).modelLoadOk = true ∧ (envOf d).openOk = true)
    (hzero : ∀ d, ∀ s ∈ (envOf d).frames, ∃ ids, s.2 = Frame.ok ids ∧
      ∀ id ∈ ids, id < (envOf d).classNames.length ∧ (envOf d).classNames[id]! ≠ "car") :
    (∀ d, ∀ s ∈ (envOf d).frames, ∀ ids, s.2 = Frame.ok ids →
      carCount (envOf d).classNames ids = some 0) ∧
      (∀ d, (flowReportOf envOf).get d = 0) ∧ (0 : ℚ) ≠ -1 := by
  have hcnt : ∀ d, ∀ s ∈ (envOf d).frames, ∃ ids, s.2 = Frame.ok ids ∧
      carCount (envOf d).classNames ids = some 0 := by
    intro d s hs
    obtain ⟨ids, hok, hprop⟩ := hzero d s hs
    exact ⟨ids, hok, carCount_zeros _ _ hprop⟩
  refine ⟨?_, ?_, by norm_num⟩
  · intro d s hs ids hids
    obtain ⟨ids2, hok2, hcnt2⟩ := hcnt d s hs
    rw [hids] at hok2
    injection hok2 with hh
    rw [hh]
    exact hcnt2
  · intro d
    obtain ⟨h1, h2, h3, h4⟩ := hflags d
    obtain ⟨w2, hw2, hz⟩ := streamLoop_zeros (envOf d).classNames (envOf d).frames []
      (fun s hs => absurd hs (List.not_mem_nil s)) (hcnt d)
    rw [flowReportOf_get]
    unfold detectCars
    simp only [h1, h2, h3, h4, not_true_eq_false, if_false, hw2]
    exact meanPeakValue_zeros _ (fun v hv => by
      obtain ⟨s, hsm, rfl⟩ := List.mem_map.1 hv
      exact hz s hsm)

/-- Witness for C6: all four directions share one valid video whose
frames contain only non-`"car"` detections; north reports `0 ≠ -1`. -/
theorem c6_witness :
    (flowReportOf (fun _ =>
        ⟨true, ["person", "car"], true, true,
          [((0 : ℚ), Frame.ok [0]), ((1 : ℚ), Frame.ok [])]⟩)).get Direction.north = 0 ∧
      (0 : ℚ) ≠ -1 :=
  ⟨(c6_all_zero_report _
      (fun d => ⟨rfl, by decide, rfl, rfl⟩)
      (fun d s hs => by
        rcases List.mem_cons.1 hs with h | h
        · exact ⟨[0], by rw [h], by decide⟩
        · rw [List.mem_singleton.1 h]
          exact ⟨[], rfl, by decide⟩)).2.1 Direction.north,
   by norm_num⟩

/-! ### Temporal aggregator claims -/

theorem evictOld_eq_filter_of_pairwise (c : ℚ) :
    ∀ l : List (ℚ × ℕ), l.Pairwise (fun s t => s.1 ≤ t.1) →
      evictOld c l = l.filter (fun s => decide (c ≤ s.1)) := by
  intro l
  induction l with
  | nil => intro _; rfl
  | cons s rest ih =>
    intro hl
    rw [List.pairwise_cons] at hl
    obtain ⟨hall, hrest⟩ := hl
    unfold evictOld
    split_ifs with hc
    · rw [ih hrest, List.filter_cons_of_neg]
      simp only [decide_eq_true_eq]
      exact not_le.2 hc
    · rw [List.filter_cons_of_pos, List.filter_eq_self.2]
      · intro t ht
        simp only [decide_eq_true_eq]
        exact le_trans (not_lt.1 hc) (hall t ht)
      · simp only [decide_eq_true_eq]
        exact not_lt.1 hc

theorem runObs_snoc (p : List (ℚ × ℕ)) (a : ℚ × ℕ) :
    runObs (p ++ [a]) = observe (runObs p) a.1 a.2 := by
  simp [runObs, List.foldl_append]

theorem runObs_suffix : ∀ obs : List (ℚ × ℕ), runObs obs <:+ obs := by
  intro obs
  induction obs using List.reverseRecOn with
  | nil => exact List.suffix_refl _
  | append_singleton p a ih =>
    rw [runObs_snoc]
    have h1 : observe (runObs p) a.1 a.2 <:+ runObs p ++ [a] := by
      have := evictOld_suffix (a.1 - 30) (runObs p ++ [(a.1, a.2)])
      simpa [observe] using this
    refine h1.trans ?_
    obtain ⟨u, hu⟩ := ih
    exact ⟨u, by rw [← List.append_assoc, hu]⟩

theorem runObs_eq_filter :
    ∀ obs : List (ℚ × ℕ), obs.Pairwise (fun s t => s.1 ≤ t.1) → ∀ hne : obs ≠ [],
      runObs obs = obs.filter (fun s => decide ((obs.getLast hne).1 - 30 ≤ s.1)) := by
  intro obs
  induction obs using List.reverseRecOn with
  | nil => exact fun _ hne => absurd rfl hne
  | append_singleton p a ih =>
    intro hp hne
    have hlast : (p ++ [a]).getLast hne = a := by
      rw [List.getLast_append]
      rfl
    rw [hlast, runObs_snoc]
    rcases eq_or_ne p [] with hp2 | hp2
    · subst hp2
      show evictOld (a.1 - 30) ([] ++ [(a.1, a.2)]) = _
      rw [List.nil_append,
        evictOld_eq_filter_of_pairwise _ _ (List.pairwise_singleton _ _)]
    · have hpp : p.Pairwise (fun s t => s.1 ≤ t.1) := (List.pairwise_append.1 hp).1
      have hall : ∀ s ∈ p, s.1 ≤ a.1 := fun s hs =>
        (List.pairwise_append.1 hp).2.2 s hs a (List.mem_singleton.2 rfl)
      rw [ih hpp hp2]
      show evictOld (a.1 - 30) (_ ++ [(a.1, a.2)]) = _
      have hpw : (p.filter (fun s => decide ((p.getLast hp2).1 - 30 ≤ s.1)) ++
          [(a.1, a.2)]).Pairwise (fun s t => s.1 ≤ t.1) := by
        rw [List.pairwise_append]
        refine ⟨hpp.filter _, List.pairwise_singleton _ _, ?_⟩
        intro s hs b hb
        rw [List.mem_singleton] at hb
        subst hb
        exact hall s (List.mem_of_mem_filter hs)
      rw [evictOld_eq_filter_of_pairwise _ _ hpw, List.filter_append, List.filter_filter]
      have hcongr : p.filter
          (fun s => decide (a.1 - 30 ≤ s.1) &&
            decide ((p.getLast hp2).1 - 30 ≤ s.1)) =
          p.filter (fun s => decide (a.1 - 30 ≤ s.1)) := by
        apply List.filter_congr
        intro s _
        cases hq : decide (a.1 - 30 ≤ s.1) with
        | false => rfl
        | true =>
          rw [Bool.true_and]
          rw [decide_eq_true_eq] at hq
          have h1 : (p.getLast hp2).1 ≤ a.1 := hall _ (List.getLast_mem hp2)
          simp only [decide_eq_true_eq]
          linarith
      rw [hcongr, List.filter_append]

/-- Counterexample to claim C1 as stated: over arbitrary observation
sequences the property fails.  Feeding timestamps `100, -100, 50`, the
eviction loop stops at the in-window head `(100, 1)` and the stale
sample `(-100, 2)` — 150 seconds older than the most recently observed
timestamp `50` — stays in the window. -/
theorem c1_counterexample :
    ((-100 : ℚ), 2) ∈ runObs [((100 : ℚ), 1), ((-100 : ℚ), 2), ((50 : ℚ), 3)] ∧
      ¬ ((50 : ℚ) - 30 ≤ -100) := by
  have h : runObs [((100 : ℚ), 1), ((-100 : ℚ), 2), ((50 : ℚ), 3)] =
      [((100 : ℚ), 1), ((-100 : ℚ), 2), ((50 : ℚ), 3)] := by
    norm_num [runObs, observe, evictOld]
  rw [h]
  refine ⟨by simp, by norm_num⟩

/-- Claim C1 (amended): for observation sequences with non-decreasing
timestamps — which successive `time.time()` readings are — the retained
window after observing the whole sequence is exactly the subsequence of
samples whose timestamp is within 30 seconds of the most recently
observed timestamp, kept in insertion order; and, unconditionally, the
window is a suffix of the fed sequence, so eviction removes samples
only from the oldest end, never from the middle.  Every prefix of such
a sequence satisfies the same hypothesis, so this is the invariant
after each `observe`. -/
theorem c1_window_invariant (obs : List (ℚ × ℕ))
    (hmono : obs.Pairwise (fun s t => s.1 ≤ t.1)) (hne : obs ≠ []) :
    runObs obs = obs.filter (fun s => decide ((obs.getLast hne).1 - 30 ≤ s.1)) ∧
      runObs obs <:+ obs :=
  ⟨runObs_eq_filter obs hmono hne, runObs_suffix obs⟩

/-- Witness for the amended C1. -/
theorem c1_witness :
    runObs [((0 : ℚ), 1), ((10 : ℚ), 2), ((40 : ℚ), 3)] = [((10 : ℚ), 2), ((40 : ℚ), 3)] ∧
      runObs [((0 : ℚ), 1), ((10 : ℚ), 2), ((40 : ℚ), 3)] <:+
        [((0 : ℚ), 1), ((10 : ℚ), 2), ((40 : ℚ), 3)] := by
  have h := c1_window_invariant [((0 : ℚ), 1), ((10 : ℚ), 2), ((40 : ℚ), 3)]
    (by norm_num [List.pairwise_cons]) (by simp)
  refine ⟨?_, h.2⟩
  rw [h.1]
  norm_num [List.getLast, List.filter]

/-! ### Peak estimator claims -/

theorem plateauEnd_adj (x : List ℕ)
    (hne : ∀ j, j + 1 < x.length → ¬ x[j]! = x[j + 1]!)
    (iMax : ℕ) (hiM : iMax ≤ x.length - 1) :
    ∀ fuel i, plateauEnd x (x[i]!) iMax fuel (i + 1) = i + 1 := by
  intro fuel i
  cases fuel with
  | zero => rfl
  | succ fuel =>
    simp only [plateauEnd]
    rw [if_neg]
    rintro ⟨hlt, heq⟩
    have hl : i + 1 < x.length := by omega
    exact hne i hl heq.symm

theorem lmAux_adj (x : List ℕ)
    (hne : ∀ j, j + 1 < x.length → ¬ x[j]! = x[j + 1]!) :
    ∀ fuel i, 1 ≤ i → x.length - 1 ≤ i + fuel →
      lmAux x (x.length - 1) fuel i =
        (List.range' i (x.length - 1 - i)).filter
          (fun j => decide (x[j - 1]! < x[j]!) && decide (x[j + 1]! < x[j]!)) := by
  intro fuel
  induction fuel with
  | zero =>
    intro i h1 h2
    rw [show x.length - 1 - i = 0 from by omega]
    rfl
  | succ fuel ih =>
    intro i h1 h2
    by_cases hi : i < x.length - 1
    · have hrw : x.length - 1 - i = (x.length - 1 - (i + 1)) + 1 := by omega
      simp only [lmAux]
      rw [if_pos hi, plateauEnd_adj x hne (x.length - 1) (le_refl _),
        hrw, List.range'_succ]
      by_cases ha : x[i - 1]! < x[i]!
      · by_cases hd : x[i + 1]! < x[i]!
        · rw [if_pos ha, if_pos hd, show (i + (i + 1 - 1)) / 2 = i from by omega,
            List.filter_cons_of_pos (by simp [ha, hd]),
            ih (i + 2) (by omega) (by omega)]
          congr 1
          by_cases hi2 : i + 1 < x.length - 1
          · rw [show x.length - 1 - (i + 1) = (x.length - 1 - (i + 2)) + 1 from by omega,
              List.range'_succ, List.filter_cons_of_neg]
            simp only [Bool.and_eq_true, decide_eq_true_eq, not_and]
            intro hcontra
            exact absurd hcontra (by simpa using not_lt.2 (le_of_lt hd))
          · rw [show x.length - 1 - (i + 1) = 0 from by omega,
              show x.length - 1 - (i + 2) = 0 from by omega]
            rfl
        · rw [if_pos ha, if_neg hd, List.filter_cons_of_neg (by simp [hd]),
            ih (i + 1) (by omega) (by omega)]
      · rw [if_neg ha, List.filter_cons_of_neg (by simp [ha]),
          ih (i + 1) (by omega) (by omega)]
    · simp only [lmAux]
      rw [if_neg hi, show x.length - 1 - i = 0 from by omega]
      rfl

theorem localMaxima_adj (x : List ℕ)
    (hne : ∀ j, j + 1 < x.length → ¬ x[j]! = x[j + 1]!) :
    localMaxima x =
      (List.range' 1 (x.length - 1 - 1)).filter
        (fun j => decide (x[j - 1]! < x[j]!) && decide (x[j + 1]! < x[j]!)) := by
  unfold localMaxima
  exact lmAux_adj x hne x.length 1 (le_refl 1) (by omega)

theorem filter_range_interior (n : ℕ) (p : ℕ → Bool) (hp0 : p 0 = false)
    (hplast : ∀ j, n ≤ j + 1 → p j = false) :
    (List.range n).filter p = (List.range' 1 (n - 1 - 1)).filter p := by
  rw [List.range_eq_range']
  rcases n with _ | m
  · rfl
  · rw [List.range'_succ, List.filter_cons_of_neg (by simp [hp0])]
    rcases m with _ | k
    · rfl
    · have hsing : p (1 + k) = false := hplast _ (by omega)
      rw [List.range'_concat, List.filter_append,
        show k + 1 + 1 - 1 - 1 = k from by omega]
      simp [hsing]

theorem strictLocalMaxima_eq_range' (x : List ℕ) :
    strictLocalMaxima x =
      (List.range' 1 (x.length - 1 - 1)).filter
        (fun j => decide (x[j - 1]! < x[j]!) && decide (x[j + 1]! < x[j]!)) := by
  unfold strictLocalMaxima
  rw [filter_range_interior x.length _ (by simp)
    (fun j hj => by simp [show ¬ (j + 1 < x.length) from by omega])]
  apply List.filter_congr
  intro j hj
  rw [List.mem_range'] at hj
  obtain ⟨k, hk, rfl⟩ := hj
  have h0 : 0 < 1 + 1 * k := by omega
  have h1 : 1 + 1 * k + 1 < x.length := by omega
  rw [decide_eq_true h0, decide_eq_true h1]
  simp

/-- Counterexample to claim C2 as stated: on the sequence `[1,2,2,1]`
no index is strictly greater than both neighbors, so the claim demands
PeakSet `∅` and metric `0`; but `find_peaks` treats the interior
plateau `2,2` as one peak and reports its midpoint index `1`, and the
code's metric is `2`. -/
theorem c2_counterexample :
    localMaxima [1, 2, 2, 1] = [1] ∧ strictLocalMaxima [1, 2, 2, 1] = [] ∧
      ¬ localMaxima [1, 2, 2, 1] = strictLocalMaxima [1, 2, 2, 1] ∧
      meanPeakValue [1, 2, 2, 1] = 2 ∧ ¬ meanPeakValue [1, 2, 2, 1] = 0 := by
  have h : localMaxima [1, 2, 2, 1] = [1] := by decide
  have hm : meanPeakValue [1, 2, 2, 1] = 2 := by simp [meanPeakValue, h]
  exact ⟨h, by decide, by decide, hm, by rw [hm]; norm_num⟩

/-- Claim C2 (amended): restricted to count sequences in which no two
adjacent samples are equal (no interior plateaus, the case the claim's
strict-neighbor description matches), the PeakSet computed by
`find_peaks` is exactly the set of strict local maxima — indices whose
value strictly exceeds both neighbors, the first and last index never
qualifying — and the metric is `0` when the sequence has fewer than 3
samples or no strict local maximum exists (e.g. monotonic sequences),
and otherwise the arithmetic mean of the values at the PeakSet
indices. -/
theorem c2_peak_estimator (x : List ℕ)
    (hne : ∀ j, j + 1 < x.length → ¬ x[j]! = x[j + 1]!) :
    localMaxima x = strictLocalMaxima x ∧
      (∀ j ∈ strictLocalMaxima x,
        0 < j ∧ j + 1 < x.length ∧ x[j - 1]! < x[j]! ∧ x[j + 1]! < x[j]!) ∧
      (∀ j, 0 < j → j + 1 < x.length → x[j - 1]! < x[j]! → x[j + 1]! < x[j]! →
        j ∈ strictLocalMaxima x) ∧
      (x.length < 3 → meanPeakValue x = 0) ∧
      (strictLocalMaxima x = [] → meanPeakValue x = 0) ∧
      (strictLocalMaxima x ≠ [] → meanPeakValue x =
        ((strictLocalMaxima x).map (fun i => ((x[i]! : ℕ) : ℚ))).sum /
          ((strictLocalMaxima x).length : ℚ)) := by
  have heq : localMaxima x = strictLocalMaxima x := by
    rw [localMaxima_adj x hne, strictLocalMaxima_eq_range' x]
  have hmem1 : ∀ j ∈ strictLocalMaxima x,
      0 < j ∧ j + 1 < x.length ∧ x[j - 1]! < x[j]! ∧ x[j + 1]! < x[j]! := by
    intro j hj
    unfold strictLocalMaxima at hj
    rw [List.mem_filter] at hj
    have h' := hj.2
    simp only [Bool.and_eq_true, decide_eq_true_eq] at h'
    exact ⟨h'.1.1.1, h'.1.1.2, h'.1.2, h'.2⟩
  have hmem2 : ∀ j, 0 < j → j + 1 < x.length → x[j - 1]! < x[j]! → x[j + 1]! < x[j]! →
      j ∈ strictLocalMaxima x := by
    intro j h0 h1 h2 h3
    unfold strictLocalMaxima
    rw [List.mem_filter, List.mem_range]
    exact ⟨by omega, by simp [h0, h1, h2, h3]⟩
  have hsmall : x.length < 3 → strictLocalMaxima x = [] := by
    intro h3
    apply List.filter_eq_nil_iff.2
    intro j hj
    rw [List.mem_range] at hj
    simp only [Bool.and_eq_true, decide_eq_true_eq, not_and]
    omega
  refine ⟨heq, hmem1, hmem2, ?_, ?_, ?_⟩
  · intro h3
    unfold meanPeakValue
    rw [heq, hsmall h3]
    rfl
  · intro hnil
    unfold meanPeakValue
    rw [heq, hnil]
    rfl
  · intro hnonnil
    unfold meanPeakValue
    rw [heq, if_pos (by simpa [List.length_pos] using hnonnil)]

/-- Witness for the amended C2. -/
theorem c2_witness :
    localMaxima [1, 3, 2, 5, 2] = strictLocalMaxima [1, 3, 2, 5, 2] :=
  (c2_peak_estimator [1, 3, 2, 5, 2] (fun j hj => by
    have hj4 : j < 4 := by simp only [List.length_cons, List.length_nil] at hj; omega
    interval_cases j <;> decide)).1

/-! ### Store claims -/

/-- Claim C9: on every error path of `upload_files` — missing `videos`
part or `userId` field, a number of videos different from 4, or any
falsy / disallowed-extension file — the route answers with an error
response and the shared state is unchanged: the activity folder created
for the event is removed again, and no activity, recent-activity entry
or user is added. -/
theorem c9_upload_atomic {P : Type} (now fresh logId : String)
    (hasVideos hasUserId : Bool) (videos : List String) (userId : String)
    (st : Store P) (hfresh : fresh ∉ st.folders)
    (herr : ¬ (hasVideos = true ∧ hasUserId = true) ∨ videos.length ≠ 4 ∨
      ¬ (videos.all (fun v => !(v == "") && allowedFile v) = true)) :
    (uploadFiles now fresh logId hasVideos hasUserId videos userId st).1.isErr = true ∧
      (uploadFiles now fresh logId hasVideos hasUserId videos userId st).2 = st := by
  unfold uploadFiles
  by_cases h1 : (hasVideos = true ∧ hasUserId = true)
  · rw [if_neg (not_not.2 h1)]
    by_cases h2 : videos.length = 4
    · rw [if_neg (not_not.2 h2)]
      have h3 : ¬ (videos.all (fun v => !(v == "") && allowedFile v) = true) := by
        rcases herr with h | h | h
        · exact absurd h1 h
        · exact absurd h2 h
        · exact h
      rw [if_neg h3]
      refine ⟨rfl, ?_⟩
      have hf : (st.folders ++ [fresh]).filter (fun f => !(f == fresh)) = st.folders := by
        rw [List.filter_append, show List.filter (fun f => !(f == fresh)) [fresh] = []
            from by simp, List.append_nil, List.filter_eq_self.2]
        intro a ha
        simp [ne_of_mem_of_not_mem ha hfresh]
      rw [hf]
    · rw [if_pos h2]
      exact ⟨rfl, rfl⟩
  · rw [if_pos h1]
    exact ⟨rfl, rfl⟩

/-- Witness for C9: a request with only one video leaves an empty store
untouched and yields an error response. -/
theorem c9_witness :
    (uploadFiles "t" "f" "l" true true ["a.mp4"] "u" (⟨[], [], [], []⟩ : Store ℕ)).1.isErr = true ∧
      (uploadFiles "t" "f" "l" true true ["a.mp4"] "u" (⟨[], [], [], []⟩ : Store ℕ)).2 =
        ⟨[], [], [], []⟩ :=
  c9_upload_atomic "t" "f" "l" true true ["a.mp4"] "u" ⟨[], [], [], []⟩
    (by simp) (Or.inr (Or.inl (by decide)))

theorem pendingWithId_false {P : Type} (aid : String) (a : Activity P)
    (h : ¬ (a.id = aid ∧ a.status = "pending")) : pendingWithId aid a = false := by
  unfold pendingWithId
  by_cases hid : a.id = aid
  · by_cases hst : a.status = "pending"
    · exact absurd ⟨hid, hst⟩ h
    · simp [hst]
  · simp [hid]

theorem updateFirst_none {α : Type} (p : α → Bool) (f : α → α) :
    ∀ l : List α, (∀ a ∈ l, p a = false) → updateFirst p f l = none := by
  intro l
  induction l with
  | nil => intro _; rfl
  | cons a rest ih =>
    intro h
    unfold updateFirst
    rw [ih (fun b hb => h b (List.mem_cons_of_mem a hb)),
      if_neg (by simp [h a (List.mem_cons_self a rest)])]
    rfl

theorem updateFirst_split {α : Type} (p : α → Bool) (f : α → α) :
    ∀ (l1 : List α) (a : α) (l2 : List α), (∀ b ∈ l1, p b = false) → p a = true →
      updateFirst p f (l1 ++ a :: l2) = some (a, l1 ++ f a :: l2) := by
  intro l1
  induction l1 with
  | nil =>
    intro a l2 _ hpa
    simp only [List.nil_append]
    unfold updateFirst
    rw [if_pos hpa]
  | cons b rest ih =>
    intro a l2 h hpa
    simp only [List.cons_append]
    unfold updateFirst
    rw [if_neg (by simp [h b (List.mem_cons_self b rest)]),
      ih a l2 (fun c hc => h c (List.mem_cons_of_mem b hc)) hpa]
    rfl

/-- Claim C10: `approve` and `reject` succeed only on an activity whose
status is `pending`.  If no activity with the requested id is pending,
both routes answer `404` and leave the whole store — in particular
every activity's status, result and trafficCounts — unchanged, so an
already approved activity is never reprocessed.  On the first pending
activity with the id, approve sets status `approved`, stores the
optimizer result over the four pipeline values and the per-direction
counts, and reject sets status `rejected`; all other activities are
untouched. -/
theorem c10_pending_transitions {P : Type} (optimize : List ℚ → P)
    (envOf : Direction → Env) (aid logId now : String) :
    (∀ st : Store P, (∀ a ∈ st.activities, a.id = aid → a.status ≠ "pending") →
      approveActivity optimize envOf aid logId now st =
        (Resp.err 404 "Activity not found or already processed", st) ∧
      rejectActivity aid logId now st =
        (Resp.err 404 "Activity not found or already processed", st)) ∧
    (∀ (st : Store P) (l1 : List (Activity P)) (a : Activity P) (l2 : List (Activity P)),
      st.activities = l1 ++ a :: l2 →
      (∀ b ∈ l1, ¬ (b.id = aid ∧ b.status = "pending")) →
      a.id = aid → a.status = "pending" →
      (approveActivity optimize envOf aid logId now st).1 = Resp.okR ∧
        (approveActivity optimize envOf aid logId now st).2.activities =
          l1 ++ approveUpdate optimize envOf a :: l2 ∧
        (approveUpdate optimize envOf a).status = "approved" ∧
        (approveUpdate optimize envOf a).result = some (optimize
          [(flowReportOf envOf).north, (flowReportOf envOf).south,
           (flowReportOf envOf).east, (flowReportOf envOf).west]) ∧
        (approveUpdate optimize envOf a).trafficCounts = some (flowReportOf envOf) ∧
        (rejectActivity aid logId now st).1 = Resp.okR ∧
        (rejectActivity aid logId now st).2.activities =
          l1 ++ { a with status := "rejected" } :: l2) := by
  constructor
  · intro st h
    have hfalse : ∀ a ∈ st.activities, pendingWithId aid a = false :=
      fun a ha => pendingWithId_false aid a (fun hc => h a ha hc.1 hc.2)
    constructor
    · unfold approveActivity
      rw [updateFirst_none _ _ _ hfalse]
    · unfold rejectActivity
      rw [updateFirst_none _ _ _ hfalse]
  · intro st l1 a l2 hsplit hl1 hid hstat
    have hl1f : ∀ b ∈ l1, pendingWithId aid b = false :=
      fun b hb => pendingWithId_false aid b (hl1 b hb)
    have hpa : pendingWithId aid a = true := by
      simp [pendingWithId, hid, hstat]
    have e1 : approveActivity optimize envOf aid logId now st =
        (Resp.okR,
          { st with
            activities := l1 ++ (approveUpdate optimize envOf a :: l2),
            recentActivities := st.recentActivities ++
              [{ id := logId,
                 action := "Admin approved activity " ++ aid ++ " for user " ++ a.userId,
                 timestamp := now }] }) := by
      unfold approveActivity
      rw [hsplit, updateFirst_split _ _ l1 a l2 hl1f hpa]
    have e2 : rejectActivity aid logId now st =
        (Resp.okR,
          { st with
            activities := l1 ++ ({ a with status := "rejected" } :: l2),
            recentActivities := st.recentActivities ++
              [{ id := logId,
                 action := "Admin rejected activity " ++ aid ++ " for user " ++ a.userId,
                 timestamp := now }] }) := by
      unfold rejectActivity
      rw [hsplit, updateFirst_split _ _ l1 a l2 hl1f hpa]
    exact ⟨by rw [e1], by rw [e1], rfl, rfl, rfl, by rw [e2], by rw [e2]⟩

/-- Witness for C10: approve on an already approved activity answers
`404` and changes nothing; approve on a pending activity answers
success. -/
theorem c10_witness :
    approveActivity (fun _ => (7 : ℕ)) (fun _ => ⟨true, ["car"], true, true, []⟩)
        "a1" "l" "t" ⟨[⟨"a1", "u", "t0", [], "approved", none, none⟩], [], [], []⟩ =
      (Resp.err 404 "Activity not found or already processed",
        ⟨[⟨"a1", "u", "t0", [], "approved", none, none⟩], [], [], []⟩) ∧
    (approveActivity (fun _ => (7 : ℕ)) (fun _ => ⟨true, ["car"], true, true, []⟩)
        "a1" "l" "t" ⟨[⟨"a1", "u", "t0", [], "pending", none, none⟩], [], [], []⟩).1 =
      Resp.okR :=
  ⟨((c10_pending_transitions (fun _ => 7) (fun _ => ⟨true, ["car"], true, true, []⟩)
      "a1" "l" "t").1 _ (by decide)).1,
   ((c10_pending_transitions (fun _ => 7) (fun _ => ⟨true, ["car"], true, true, []⟩)
      "a1" "l" "t").2 _ [] ⟨"a1", "u", "t0", [], "pending", none, none⟩ [] rfl
      (by simp) rfl rfl).1⟩

end Traffic
